import Mathlib

/-!
Verification of the KIC virtual-currency ledger of `src/main.py`.

The ledger state is the part of the sqlite database that the KIC code
touches: the `users` table restricted to its `(id, kic_balance)` columns,
and the `kic_transactions` table in insertion order.  The functions below
are shallow embeddings of `KICManager.transfer_kic`,
`KICManager.get_kic_balance`, `EnhancedAuthManager.register` and the data
seeded by `Database.seed_enhanced_data`.
-/

namespace KIC

/-- A row of the `kic_transactions` table (src/main.py lines 199-210), in the
columns the ledger code writes: `user_id`, `transaction_type`, `amount`,
`description`, `related_id`.  `transfer_kic` never supplies `related_id`,
so it is `Option Nat` and stays `none` (NULL) for transfer entries. -/
structure LogEntry where
  user_id : Nat
  transaction_type : String
  amount : Int
  description : String
  related_id : Option Nat
  deriving DecidableEq

/-- The ledger-relevant database state: the `(id, kic_balance)` columns of the
`users` table, and the `kic_transactions` rows in insertion order. -/
structure LedgerState where
  users : List (Nat × Int)
  log : List LogEntry
  deriving DecidableEq

/-- `SELECT kic_balance FROM users WHERE id = ?` followed by `fetchone()`:
the balance of the first row whose id matches, or `none` when no row does. -/
def lookupBalance : List (Nat × Int) → Nat → Option Int
  | [], _ => none
  | p :: rest, uid => if p.1 = uid then some p.2 else lookupBalance rest uid

/-- `UPDATE users SET kic_balance = kic_balance + delta WHERE id = ?`:
adds `delta` to the balance of every row whose id matches (a no-op when no
row matches, exactly like the SQL UPDATE). -/
def updateBalance : List (Nat × Int) → Nat → Int → List (Nat × Int)
  | [], _, _ => []
  | p :: rest, uid, delta =>
    (if p.1 = uid then (p.1, p.2 + delta) else p) :: updateBalance rest uid delta

/-- `KICManager.transfer_kic` (src/main.py lines 763-795).  It reads the
sender's balance (`fetchone()[0]` raises TypeError when the sender row is
missing, modelled as `none`); if `balance >= amount` it debits the sender,
credits the receiver, appends a `sent` entry with amount `-amount` and a
`received` entry with amount `amount` (no `related_id`), and returns True;
otherwise it returns False and leaves the state untouched.  No other
validation is performed. -/
def transfer_kic (from_user_id to_user_id : Nat) (amount : Int)
    (description : String) (s : LedgerState) : Option (Bool × LedgerState) :=
  match lookupBalance s.users from_user_id with
  | none => none
  | some balance =>
    if balance ≥ amount then
      some (true,
        { users := updateBalance (updateBalance s.users from_user_id (-amount))
            to_user_id amount,
          log := s.log ++
            [{ user_id := from_user_id, transaction_type := "sent",
               amount := -amount, description := description, related_id := none },
             { user_id := to_user_id, transaction_type := "received",
               amount := amount, description := description, related_id := none }] })
    else some (false, s)

/-- Errors a balance lookup can end in: the Python `TypeError` raised by
subscripting the `None` that `fetchone()` returns for a missing row, and the
`NotFound` error the specification prescribes (never produced by the code). -/
inductive KicError where
  | typeError
  | notFound
  deriving DecidableEq

/-- Result of a balance query: the balance, or an error. -/
inductive BalanceResult where
  | ok (balance : Int)
  | err (e : KicError)
  deriving DecidableEq

/-- `KICManager.get_kic_balance` (src/main.py lines 798-801): returns the
balance when the user row exists; when it does not, `fetchone()` is `None`
and `None[0]` raises an uncaught TypeError. -/
def get_kic_balance (user_id : Nat) (s : LedgerState) : BalanceResult :=
  match lookupBalance s.users user_id with
  | some b => .ok b
  | none => .err .typeError

/-- Modelled from the spec: `getBalance(account_id) -> integer` "fails with
`NotFound` if the account does not exist" (spec section 4.1).  Declared only
to compare the code's `get_kic_balance` against the specified behaviour. -/
def getBalance_spec (user_id : Nat) (s : LedgerState) : BalanceResult :=
  match lookupBalance s.users user_id with
  | some b => .ok b
  | none => .err .notFound

/-- `EnhancedAuthManager.register` (src/main.py lines 676-689): inserts a new
user row with `kic_balance` 1000 and writes no `kic_transactions` entry. -/
def register (s : LedgerState) (new_id : Nat) : LedgerState :=
  { s with users := s.users ++ [(new_id, 1000)] }

/-- The users seeded by `Database.seed_enhanced_data` (src/main.py lines
289-314): three rows with `kic_balance` 1500, 2200 and 5000, receiving
AUTOINCREMENT ids 1, 2, 3. -/
def seed_users : List (Nat × Int) := [(1, 1500), (2, 2200), (3, 5000)]

/-- The `kic_transactions` rows seeded by `Database.seed_enhanced_data`
(src/main.py lines 358-369). -/
def seed_kic_log : List LogEntry :=
  [{ user_id := 1, transaction_type := "project_payment", amount := 2500,
     description := "Payment for completed robotics project", related_id := some 1 },
   { user_id := 2, transaction_type := "lab_booking", amount := -800,
     description := "Paid for AI lab booking using KIC", related_id := some 1 },
   { user_id := 1, transaction_type := "bonus", amount := 500,
     description := "Performance bonus for high-rated project delivery", related_id := none },
   { user_id := 2, transaction_type := "talent_fee", amount := 1200,
     description := "Received payment for consulting work", related_id := some 2 }]

/-- The ledger state right after `Database.seed_enhanced_data`. -/
def seededState : LedgerState := { users := seed_users, log := seed_kic_log }

/-- Sum of the `amount` column of the log entries belonging to one account:
the right-hand side of the spec's balance-equals-log-sum invariant. -/
def logSum (log : List LogEntry) (uid : Nat) : Int :=
  ((log.filter (fun e => e.user_id == uid)).map (fun e => e.amount)).sum

/-- Sum of all balances in the system. -/
def totalBalance (s : LedgerState) : Int := (s.users.map (fun p => p.2)).sum

/-- Number of user rows carrying a given id (1 for an existing account, 0 for
a missing one, since `id` is the primary key). -/
def countId : List (Nat × Int) → Nat → Nat
  | [], _ => 0
  | p :: rest, uid => (if p.1 = uid then 1 else 0) + countId rest uid

/-- Every account balance is non-negative. -/
def allNonneg (users : List (Nat × Int)) : Prop := ∀ p ∈ users, 0 ≤ p.2

/-- A transfer request, as passed to `transfer_kic`. -/
structure TransferReq where
  fromId : Nat
  toId : Nat
  amount : Int
  descr : String

/-- Run a sequence of `transfer_kic` calls; a crash (missing sender) aborts
the whole run. -/
def runTransfers : List TransferReq → LedgerState → Option LedgerState
  | [], s => some s
  | r :: rest, s =>
    match transfer_kic r.fromId r.toId r.amount r.descr s with
    | none => none
    | some (_, s') => runTransfers rest s'

/-- Concrete two-account state used in scenario checks: account 1 holds 1000
KIC and account 2 holds 500 KIC (the spec's section 8 scenario). -/
def exState : LedgerState := { users := [(1, 1000), (2, 500)], log := [] }

/-- Concrete state with account 2 at balance 0, used for the overdraft
counterexample. -/
def exState2 : LedgerState := { users := [(1, 1000), (2, 0)], log := [] }

/-- The state `transfer_kic 1 2 300 "x"` produces from `exState`. -/
def exAfter300 : LedgerState :=
  { users := [(1, 700), (2, 800)],
    log := [{ user_id := 1, transaction_type := "sent", amount := -300,
              description := "x", related_id := none },
            { user_id := 2, transaction_type := "received", amount := 300,
              description := "x", related_id := none }] }

/-- The state `transfer_kic 1 2 300 "x"` produces from `seededState`. -/
def seededAfter : LedgerState :=
  { users := updateBalance (updateBalance seededState.users 1 (-300)) 2 300,
    log := seededState.log ++
      [{ user_id := 1, transaction_type := "sent", amount := -300,
         description := "x", related_id := none },
       { user_id := 2, transaction_type := "received", amount := 300,
         description := "x", related_id := none }] }

/-- A two-request sequence between the two existing accounts of `exState`. -/
def reqsEx : List TransferReq :=
  [{ fromId := 1, toId := 2, amount := 300, descr := "x" },
   { fromId := 2, toId := 1, amount := 100, descr := "y" }]

/-- The state `runTransfers reqsEx` produces from `exState`. -/
def exAfterTwo : LedgerState :=
  { users := [(1, 800), (2, 700)],
    log := [{ user_id := 1, transaction_type := "sent", amount := -300,
              description := "x", related_id := none },
            { user_id := 2, transaction_type := "received", amount := 300,
              description := "x", related_id := none },
            { user_id := 2, transaction_type := "sent", amount := -100,
              description := "y", related_id := none },
            { user_id := 1, transaction_type := "received", amount := 100,
              description := "y", related_id := none }] }

/-! Concurrency model.  The sqlite connection is shared across threads
(`sqlite3.connect(db_path, check_same_thread=False)`, src/main.py line 26)
and `transfer_kic` takes no lock between its balance SELECT (lines 768-769)
and the conditional UPDATE/INSERT/commit block (lines 771-793).  Each
statement executes atomically against the shared database, so a concurrent
execution of several `transfer_kic` calls is an interleaving of per-thread
steps.  We model the coarsest split that the code's structure forces: the
SELECT is one step and the whole write block is a second, single atomic
step.  This is conservative — any finer grain only admits more
interleavings, so a race exhibited here exists in the code. -/

/-- Program counter of one thread running `transfer_kic f t a d`: before its
SELECT, after its SELECT with the balance it read, or finished with the
Bool it returned. -/
inductive ThreadPC where
  | start
  | readDone (balance : Int)
  | finished (ok : Bool)
  deriving DecidableEq

/-- The shared database together with the program counter of every thread. -/
structure ConcState where
  st : LedgerState
  threads : List ThreadPC
  deriving DecidableEq

/-- One atomic step of a thread running `transfer_kic f t a d`: either its
SELECT of the sender balance, or — once the balance is read — the Python
comparison followed by the whole write block, exactly as `transfer_kic`
performs them. -/
def threadStep (f t : Nat) (a : Int) (d : String) (s : LedgerState) :
    ThreadPC → ThreadPC × LedgerState
  | .start =>
    match lookupBalance s.users f with
    | some b => (.readDone b, s)
    | none => (.start, s)
  | .readDone b =>
    if b ≥ a then
      (.finished true,
        { users := updateBalance (updateBalance s.users f (-a)) t a,
          log := s.log ++
            [{ user_id := f, transaction_type := "sent", amount := -a,
               description := d, related_id := none },
             { user_id := t, transaction_type := "received", amount := a,
               description := d, related_id := none }] })
    else (.finished false, s)
  | .finished ok => (.finished ok, s)

/-- Run a schedule: at each position the named thread takes its next step. -/
def runSchedule (f t : Nat) (a : Int) (d : String) :
    List Nat → ConcState → ConcState
  | [], c => c
  | i :: rest, c =>
    match c.threads.get? i with
    | none => runSchedule f t a d rest c
    | some pc =>
      let r := threadStep f t a d c.st pc
      runSchedule f t a d rest { st := r.2, threads := c.threads.set i r.1 }

/-- Number of threads that finished with the given outcome. -/
def countOutcome (c : ConcState) (ok : Bool) : Nat :=
  c.threads.countP (fun pc => decide (pc = ThreadPC.finished ok))

/-- The claim's scenario: 100 concurrent callers of
`transfer_kic 1 2 1 _` against account 1 (A) starting at balance 50. -/
def raceInit : ConcState :=
  { st := { users := [(1, 50), (2, 500)], log := [] },
    threads := List.replicate 100 ThreadPC.start }

/-- The lost-update schedule: every thread performs its SELECT before any
thread performs its write block. -/
def raceSchedule : List Nat := List.range 100 ++ List.range 100

/-- The serialized schedule: each thread runs both of its steps to
completion before the next thread starts. -/
def seqSchedule : List Nat := (List.range 100).flatMap (fun i => [i, i])

/-! Helper lemmas about the embedded table operations. -/

theorem lookupBalance_update_self (u : List (Nat × Int)) (uid : Nat) (d : Int) :
    lookupBalance (updateBalance u uid d) uid
      = (lookupBalance u uid).map (fun b => b + d) := by
  induction u with
  | nil => rfl
  | cons p rest ih =>
    by_cases h : p.1 = uid <;> simp [updateBalance, lookupBalance, h, ih]

theorem lookupBalance_update_other (u : List (Nat × Int)) {v uid : Nat}
    (h : v ≠ uid) (d : Int) :
    lookupBalance (updateBalance u uid d) v = lookupBalance u v := by
  induction u with
  | nil => rfl
  | cons p rest ih =>
    rcases p with ⟨k, bal⟩
    by_cases hp : k = uid
    · subst hp
      have hv : k ≠ v := fun hc => h (hc ▸ rfl)
      simp [updateBalance, lookupBalance, hv, ih]
    · by_cases hv : k = v
      · subst hv
        simp [updateBalance, lookupBalance, hp, ih]
      · simp [updateBalance, lookupBalance, hp, hv, ih]

theorem updateBalance_keys (u : List (Nat × Int)) (uid : Nat) (d : Int) :
    (updateBalance u uid d).map Prod.fst = u.map Prod.fst := by
  induction u with
  | nil => rfl
  | cons p rest ih => by_cases h : p.1 = uid <;> simp [updateBalance, h, ih]

theorem countId_update (u : List (Nat × Int)) (x : Nat) (d : Int) (v : Nat) :
    countId (updateBalance u x d) v = countId u v := by
  induction u with
  | nil => rfl
  | cons p rest ih =>
    rcases p with ⟨k, bal⟩
    by_cases hx : k = x
    · subst hx
      by_cases hv : k = v
      · subst hv
        simp [updateBalance, countId, ih]
      · simp [updateBalance, countId, hv, ih]
    · by_cases hv : k = v
      · subst hv
        simp [updateBalance, countId, hx, ih]
      · simp [updateBalance, countId, hx, hv, ih]

theorem sum_update (u : List (Nat × Int)) (uid : Nat) (d : Int) :
    ((updateBalance u uid d).map (fun p => p.2)).sum
      = (u.map (fun p => p.2)).sum + d * countId u uid := by
  induction u with
  | nil => simp [updateBalance, countId]
  | cons p rest ih =>
    by_cases h : p.1 = uid <;> simp [updateBalance, countId, h, ih] <;> ring

theorem countId_eq_zero_of_lookup_none (u : List (Nat × Int)) (uid : Nat)
    (h : lookupBalance u uid = none) : countId u uid = 0 := by
  induction u with
  | nil => rfl
  | cons p rest ih =>
    by_cases hp : p.1 = uid
    · simp [lookupBalance, hp] at h
    · simp only [lookupBalance, if_neg hp] at h
      simp [countId, hp, ih h]

theorem updateBalance_of_countId_zero (u : List (Nat × Int)) (uid : Nat) (d : Int)
    (h : countId u uid = 0) : updateBalance u uid d = u := by
  induction u with
  | nil => rfl
  | cons p rest ih =>
    by_cases hp : p.1 = uid
    · simp [countId, hp] at h
    · simp only [countId, if_neg hp, Nat.zero_add] at h
      simp [updateBalance, hp, ih h]

theorem countId_eq_zero_of_not_mem (u : List (Nat × Int)) (uid : Nat)
    (h : uid ∉ u.map Prod.fst) : countId u uid = 0 := by
  induction u with
  | nil => rfl
  | cons p rest ih =>
    rw [List.map_cons] at h
    have h1 : uid ≠ p.1 := fun hc => h (by rw [hc]; exact List.mem_cons_self _ _)
    have h2 : uid ∉ rest.map Prod.fst := fun hc => h (List.mem_cons_of_mem _ hc)
    have hp : p.1 ≠ uid := fun hc => h1 hc.symm
    simp [countId, hp, ih h2]

theorem countId_eq_one_of_lookup_some (u : List (Nat × Int)) (uid : Nat) (b : Int)
    (hnd : (u.map Prod.fst).Nodup) (h : lookupBalance u uid = some b) :
    countId u uid = 1 := by
  induction u with
  | nil => simp [lookupBalance] at h
  | cons p rest ih =>
    rw [List.map_cons] at hnd
    have hnd' := List.nodup_cons.mp hnd
    by_cases hp : p.1 = uid
    · have hm : uid ∉ rest.map Prod.fst := by rw [← hp]; exact hnd'.1
      simp [countId, hp, countId_eq_zero_of_not_mem rest uid hm]
    · simp only [lookupBalance, if_neg hp] at h
      simp [countId, hp, ih hnd'.2 h]

theorem lookup_isSome_iff_mem (u : List (Nat × Int)) (uid : Nat) :
    (lookupBalance u uid).isSome = true ↔ uid ∈ u.map Prod.fst := by
  induction u with
  | nil => simp [lookupBalance]
  | cons p rest ih =>
    by_cases hp : p.1 = uid
    · simp [lookupBalance, hp]
    · simp [lookupBalance, hp, Ne.symm hp, ih]

theorem lookup_unique (u : List (Nat × Int)) (uid : Nat) (b : Int)
    (hnd : (u.map Prod.fst).Nodup) (h : lookupBalance u uid = some b) :
    ∀ p ∈ u, p.1 = uid → p.2 = b := by
  induction u with
  | nil => intro p hp; simp at hp
  | cons q rest ih =>
    rw [List.map_cons] at hnd
    have hnd' := List.nodup_cons.mp hnd
    intro p hp hpe
    rcases List.mem_cons.mp hp with rfl | hmem
    · by_cases hq : p.1 = uid
      · simp only [lookupBalance, if_pos hq, Option.some.injEq] at h
        exact h
      · exact absurd hpe hq
    · by_cases hq : q.1 = uid
      · exfalso
        apply hnd'.1
        rw [hq]
        exact hpe ▸ List.mem_map.mpr ⟨p, hmem, rfl⟩
      · simp only [lookupBalance, if_neg hq] at h
        exact ih hnd'.2 h p hmem hpe

theorem logSum_append (l1 l2 : List LogEntry) (uid : Nat) :
    logSum (l1 ++ l2) uid = logSum l1 uid + logSum l2 uid := by
  simp [logSum, List.filter_append]

theorem logSum_pair (e1 e2 : LogEntry) (uid : Nat) :
    logSum [e1, e2] uid = (if e1.user_id = uid then e1.amount else 0)
      + (if e2.user_id = uid then e2.amount else 0) := by
  by_cases h1 : e1.user_id = uid <;> by_cases h2 : e2.user_id = uid <;>
    simp [logSum, List.filter_cons, beq_iff_eq, h1, h2]

/-- The exact result of `transfer_kic` when the sender exists and passes the
balance check: the success branch of src/main.py lines 771-794. -/
theorem transfer_kic_eq_of_ge (f t : Nat) (a b : Int) (d : String)
    (s : LedgerState) (hb : lookupBalance s.users f = some b) (hge : b ≥ a) :
    transfer_kic f t a d s =
      some (true,
        { users := updateBalance (updateBalance s.users f (-a)) t a,
          log := s.log ++
            [{ user_id := f, transaction_type := "sent", amount := -a,
               description := d, related_id := none },
             { user_id := t, transaction_type := "received", amount := a,
               description := d, related_id := none }] }) := by
  simp only [transfer_kic, hb]
  rw [if_pos hge]

/-- The exact result of `transfer_kic` when the sender exists and fails the
balance check: src/main.py line 795, `return False` with no mutation. -/
theorem transfer_kic_eq_of_lt (f t : Nat) (a b : Int) (d : String)
    (s : LedgerState) (hb : lookupBalance s.users f = some b) (hlt : b < a) :
    transfer_kic f t a d s = some (false, s) := by
  simp only [transfer_kic, hb]
  rw [if_neg (not_le.mpr hlt)]

/-- Looking up any existing account after the transfer's pair of UPDATEs:
the balance moves by `-a` if the account is the sender and by `+a` if it is
the receiver. -/
theorem lookup_double_update (u : List (Nat × Int)) (f t uid : Nat) (a b : Int)
    (hb : lookupBalance u uid = some b) :
    lookupBalance (updateBalance (updateBalance u f (-a)) t a) uid
      = some (b + ((if f = uid then -a else 0) + (if t = uid then a else 0))) := by
  by_cases huf : f = uid
  · by_cases hut : t = uid
    · rw [if_pos huf, if_pos hut, huf, hut, lookupBalance_update_self,
        lookupBalance_update_self, hb]
      simp only [Option.map_some']
      exact congrArg some (by ring)
    · rw [if_pos huf, if_neg hut, huf,
        lookupBalance_update_other _ (fun hc => hut hc.symm),
        lookupBalance_update_self, hb]
      simp only [Option.map_some']
      exact congrArg some (by ring)
  · by_cases hut : t = uid
    · rw [if_neg huf, if_pos hut, hut, lookupBalance_update_self,
        lookupBalance_update_other _ (fun hc => huf hc.symm), hb]
      simp only [Option.map_some']
      exact congrArg some (by ring)
    · rw [if_neg huf, if_neg hut,
        lookupBalance_update_other _ (fun hc => hut hc.symm),
        lookupBalance_update_other _ (fun hc => huf hc.symm), hb]
      exact congrArg some (by ring)

/-- Every row of an updated table comes from a row of the original table,
updated if its id matched. -/
theorem mem_updateBalance (u : List (Nat × Int)) (uid : Nat) (d : Int)
    (q : Nat × Int) (hq : q ∈ updateBalance u uid d) :
    ∃ p ∈ u, q = if p.1 = uid then (p.1, p.2 + d) else p := by
  induction u with
  | nil => cases hq
  | cons p rest ih =>
    rcases List.mem_cons.mp hq with h | h
    · exact ⟨p, List.mem_cons_self _ _, h⟩
    · obtain ⟨p', hp', hq'⟩ := ih h
      exact ⟨p', List.mem_cons_of_mem _ hp', hq'⟩

/-- `transfer_kic` never creates or deletes user rows: the id column is
unchanged by any call that returns. -/
theorem transfer_kic_keys (f t : Nat) (a : Int) (d : String) (s : LedgerState)
    (ok : Bool) (s' : LedgerState) (h : transfer_kic f t a d s = some (ok, s')) :
    s'.users.map Prod.fst = s.users.map Prod.fst := by
  rcases hf : lookupBalance s.users f with _ | bf
  · unfold transfer_kic at h
    rw [hf] at h
    cases h
  · by_cases hge : bf ≥ a
    · rw [transfer_kic_eq_of_ge f t a bf d s hf hge] at h
      simp only [Option.some.injEq, Prod.mk.injEq] at h
      obtain ⟨-, hs⟩ := h
      subst hs
      show (updateBalance (updateBalance s.users f (-a)) t a).map Prod.fst = _
      rw [updateBalance_keys, updateBalance_keys]
    · rw [transfer_kic_eq_of_lt f t a bf d s hf (not_le.mp hge)] at h
      simp only [Option.some.injEq, Prod.mk.injEq] at h
      obtain ⟨-, hs⟩ := h
      subst hs
      rfl

/-- One `transfer_kic` call conserves the sum of balances as long as the
receiver id matches an existing row. -/
theorem transfer_kic_total_of_receiver_mem (f t : Nat) (a : Int) (d : String)
    (s : LedgerState) (ok : Bool) (s' : LedgerState)
    (hnd : (s.users.map Prod.fst).Nodup)
    (ht : t ∈ s.users.map Prod.fst)
    (h : transfer_kic f t a d s = some (ok, s')) :
    totalBalance s' = totalBalance s := by
  rcases hf : lookupBalance s.users f with _ | bf
  · unfold transfer_kic at h
    rw [hf] at h
    cases h
  · by_cases hge : bf ≥ a
    · rw [transfer_kic_eq_of_ge f t a bf d s hf hge] at h
      simp only [Option.some.injEq, Prod.mk.injEq] at h
      obtain ⟨-, hs⟩ := h
      subst hs
      have h1 : countId s.users f = 1 :=
        countId_eq_one_of_lookup_some s.users f bf hnd hf
      have h2 : countId s.users t = 1 := by
        rcases hbt : lookupBalance s.users t with _ | bt
        · exfalso
          have hsome := (lookup_isSome_iff_mem s.users t).mpr ht
          rw [hbt] at hsome
          cases hsome
        · exact countId_eq_one_of_lookup_some s.users t bt hnd hbt
      show ((updateBalance (updateBalance s.users f (-a)) t a).map
          (fun p => p.2)).sum = _
      rw [sum_update, countId_update, sum_update, h1, h2]
      show _ = totalBalance s
      unfold totalBalance
      ring
    · rw [transfer_kic_eq_of_lt f t a bf d s hf (not_le.mp hge)] at h
      simp only [Option.some.injEq, Prod.mk.injEq] at h
      obtain ⟨-, hs⟩ := h
      subst hs
      rfl

/-! Claims. -/

/-- Claim C1, counterexample: with accounts 1 (balance 1000) and 2 (balance
500), the call `transfer_kic 1 1 0 "x"` has a non-positive amount and equal
source and destination, yet it is not rejected: it returns True and two log
entries are appended. -/
theorem transfer_kic_accepts_invalid_call :
    (transfer_kic 1 1 0 "x" exState).map Prod.fst = some true ∧
    (transfer_kic 1 1 0 "x" exState).map (fun r => r.2.log.length) = some 2 := by
  exact ⟨rfl, rfl⟩

/-- Claim C1, amended: `transfer_kic` implements no InvalidTransfer check at
all.  In each of the claim's rejection cases — non-positive amount, equal
source and destination, or a receiver id matching no account — the call
still goes through whenever the sender row exists with balance ≥ amount: it
returns True and appends two log entries. -/
theorem transfer_kic_no_invalid_check (f t : Nat) (a b : Int) (d : String)
    (s : LedgerState)
    (hcase : a ≤ 0 ∨ f = t ∨ lookupBalance s.users t = none)
    (hb : lookupBalance s.users f = some b) (hge : b ≥ a) :
    (transfer_kic f t a d s).map Prod.fst = some true ∧
    (transfer_kic f t a d s).map (fun r => r.2.log.length)
      = some (s.log.length + 2) := by
  rw [transfer_kic_eq_of_ge f t a b d s hb hge]
  refine ⟨rfl, ?_⟩
  simp

/-- Claim C1, witness for the amended theorem: amount 0 from account 1 to
account 2 on `exState` is accepted and logged. -/
theorem transfer_kic_no_invalid_check_witness :
    ((0 : Int) ≤ 0 ∨ 1 = 2 ∨ lookupBalance exState.users 2 = none) ∧
    lookupBalance exState.users 1 = some 1000 ∧ (1000 : Int) ≥ 0 ∧
    ((transfer_kic 1 2 0 "x" exState).map Prod.fst = some true ∧
     (transfer_kic 1 2 0 "x" exState).map (fun r => r.2.log.length)
       = some (exState.log.length + 2)) :=
  ⟨Or.inl (by decide), rfl, by decide,
    transfer_kic_no_invalid_check 1 2 0 1000 "x" exState (Or.inl (by decide))
      rfl (by decide)⟩

/-- Claim C2: when the sender's recorded balance is strictly below the
requested amount, `transfer_kic` fails — it returns False, the value the
caller reports as the insufficient-funds error — and performs no mutation at
all: the resulting state is exactly the input state, so both balances and
the transaction log are unchanged and zero entries are appended. -/
theorem transfer_kic_insufficient_no_mutation (f t : Nat) (a b : Int)
    (d : String) (s : LedgerState)
    (hb : lookupBalance s.users f = some b) (hlt : b < a) :
    transfer_kic f t a d s = some (false, s) :=
  transfer_kic_eq_of_lt f t a b d s hb hlt

/-- Claim C2, witness: asking for 2000 from account 1 (balance 1000) fails
and leaves `exState` untouched. -/
theorem transfer_kic_insufficient_no_mutation_witness :
    lookupBalance exState.users 1 = some 1000 ∧ (1000 : Int) < 2000 ∧
    transfer_kic 1 2 2000 "x" exState = some (false, exState) :=
  ⟨rfl, by decide,
    transfer_kic_insufficient_no_mutation 1 2 2000 1000 "x" exState rfl (by decide)⟩

/-- Claim C3: when both accounts exist, the endpoints differ, the amount is
positive and the sender's balance covers it, the transfer succeeds: the
sender's balance decreases by exactly the amount, the receiver's increases
by exactly the amount, and exactly two entries are appended — a `sent` entry
for the sender with amount `-amount` and a `received` entry for the receiver
with amount `+amount`. -/
theorem transfer_kic_success (f t : Nat) (a bf bt : Int) (d : String)
    (s : LedgerState)
    (hf : lookupBalance s.users f = some bf)
    (ht : lookupBalance s.users t = some bt)
    (hne : f ≠ t) (hpos : 0 < a) (hle : a ≤ bf) :
    (transfer_kic f t a d s).map Prod.fst = some true ∧
    (transfer_kic f t a d s).map (fun r => lookupBalance r.2.users f)
      = some (some (bf - a)) ∧
    (transfer_kic f t a d s).map (fun r => lookupBalance r.2.users t)
      = some (some (bt + a)) ∧
    (transfer_kic f t a d s).map (fun r => r.2.log)
      = some (s.log ++
          [{ user_id := f, transaction_type := "sent", amount := -a,
             description := d, related_id := none },
           { user_id := t, transaction_type := "received", amount := a,
             description := d, related_id := none }]) := by
  rw [transfer_kic_eq_of_ge f t a bf d s hf hle]
  refine ⟨rfl, ?_, ?_, rfl⟩
  · have h1 : lookupBalance (updateBalance (updateBalance s.users f (-a)) t a) f
        = some (bf - a) := by
      rw [lookupBalance_update_other _ hne, lookupBalance_update_self, hf]
      simp only [Option.map_some']
      exact congrArg some (by ring)
    exact congrArg some h1
  · have h2 : lookupBalance (updateBalance (updateBalance s.users f (-a)) t a) t
        = some (bt + a) := by
      rw [lookupBalance_update_self, lookupBalance_update_other _ (Ne.symm hne), ht]
      simp only [Option.map_some']
    exact congrArg some h2

/-- Claim C3, witness: the spec's scenario — A (account 1) at 1000, B
(account 2) at 500, transfer of 300 yields 700 and 800 with entries -300 and
+300. -/
theorem transfer_kic_success_witness :
    lookupBalance exState.users 1 = some 1000 ∧
    lookupBalance exState.users 2 = some 500 ∧
    (1 : Nat) ≠ 2 ∧ (0 : Int) < 300 ∧ (300 : Int) ≤ 1000 ∧
    ((transfer_kic 1 2 300 "x" exState).map Prod.fst = some true ∧
     (transfer_kic 1 2 300 "x" exState).map (fun r => lookupBalance r.2.users 1)
       = some (some 700) ∧
     (transfer_kic 1 2 300 "x" exState).map (fun r => lookupBalance r.2.users 2)
       = some (some 800) ∧
     (transfer_kic 1 2 300 "x" exState).map (fun r => r.2.log)
       = some (exState.log ++
           [{ user_id := 1, transaction_type := "sent", amount := -300,
              description := "x", related_id := none },
            { user_id := 2, transaction_type := "received", amount := 300,
              description := "x", related_id := none }])) :=
  ⟨rfl, rfl, by decide, by decide, by decide, by
    obtain ⟨h1, h2, h3, h4⟩ := transfer_kic_success 1 2 300 1000 500 "x" exState
      rfl rfl (by decide) (by decide) (by decide)
    rw [show (1000 : Int) - 300 = 700 by norm_num] at h2
    rw [show (500 : Int) + 300 = 800 by norm_num] at h3
    exact ⟨h1, h2, h3, h4⟩⟩

/-- Claim C4, counterexample: in the successful transfer of 300 from account
1 to account 2 both appended entries carry `related_id = none` (the INSERTs
at src/main.py lines 783-791 do not supply the `related_id` column), so
neither entry references the other. -/
theorem transfer_kic_entries_not_linked :
    (transfer_kic 1 2 300 "x" exState).map
        (fun r => r.2.log.map (fun e => e.related_id))
      = some [none, none] := by
  exact rfl

/-- Claim C4, amended: every successful transfer appends exactly one `sent`
and one `received` entry whose amounts are additive inverses, but both
entries' `related_id` fields are NULL: the mutual link the claim describes
is never written. -/
theorem transfer_kic_pair_unlinked (f t : Nat) (a b : Int) (d : String)
    (s : LedgerState) (hb : lookupBalance s.users f = some b) (hge : b ≥ a) :
    (transfer_kic f t a d s).map (fun r => r.2.log)
      = some (s.log ++
          [{ user_id := f, transaction_type := "sent", amount := -a,
             description := d, related_id := none },
           { user_id := t, transaction_type := "received", amount := a,
             description := d, related_id := none }]) ∧
    -a + a = 0 := by
  rw [transfer_kic_eq_of_ge f t a b d s hb hge]
  exact ⟨rfl, by ring⟩

/-- Claim C4, witness for the amended theorem at the concrete transfer of
300 from account 1 to account 2 on `exState`. -/
theorem transfer_kic_pair_unlinked_witness :
    lookupBalance exState.users 1 = some 1000 ∧ (1000 : Int) ≥ 300 ∧
    ((transfer_kic 1 2 300 "x" exState).map (fun r => r.2.log)
      = some (exState.log ++
          [{ user_id := 1, transaction_type := "sent", amount := -300,
             description := "x", related_id := none },
           { user_id := 2, transaction_type := "received", amount := 300,
             description := "x", related_id := none }]) ∧
     (-300 : Int) + 300 = 0) :=
  ⟨rfl, by decide, transfer_kic_pair_unlinked 1 2 300 1000 "x" exState rfl (by decide)⟩

/-- Claim C5, counterexample: reachable states violate balance = log sum.
Right after seeding, user 1 has balance 1500 while its log entries sum to
3000; and a user registered into the seeded state (id 4) has balance 1000
with no log entries at all. -/
theorem seeded_balance_ne_logSum :
    lookupBalance seededState.users 1 = some 1500 ∧
    logSum seededState.log 1 = 3000 ∧
    lookupBalance (register seededState 4).users 4 = some 1000 ∧
    logSum (register seededState 4).log 4 = 0 ∧
    (1500 : Int) ≠ 3000 ∧ (1000 : Int) ≠ 0 := by
  refine ⟨rfl, by decide, by decide, by decide, by decide, by decide⟩

/-- Claim C5, amended: balance = log sum fails already at account creation
(seeded and registered accounts start with balances not backed by any log
entry), but `transfer_kic` preserves every existing account's difference
between balance and log sum: after any call that returns, the new balance is
the old balance plus the change in that account's log sum. -/
theorem transfer_kic_preserves_balance_minus_logSum (f t uid : Nat) (a b : Int)
    (d : String) (s : LedgerState) (ok : Bool) (s' : LedgerState)
    (h : transfer_kic f t a d s = some (ok, s'))
    (hb : lookupBalance s.users uid = some b) :
    lookupBalance s'.users uid
      = some (b + (logSum s'.log uid - logSum s.log uid)) := by
  rcases hf : lookupBalance s.users f with _ | bf
  · unfold transfer_kic at h
    rw [hf] at h
    cases h
  · by_cases hge : bf ≥ a
    · rw [transfer_kic_eq_of_ge f t a bf d s hf hge] at h
      simp only [Option.some.injEq, Prod.mk.injEq] at h
      obtain ⟨-, hs⟩ := h
      subst hs
      show lookupBalance (updateBalance (updateBalance s.users f (-a)) t a) uid = _
      rw [lookup_double_update s.users f t uid a b hb]
      simp only [logSum_append, logSum_pair]
      congr 1
      ring
    · rw [transfer_kic_eq_of_lt f t a bf d s hf (not_le.mp hge)] at h
      simp only [Option.some.injEq, Prod.mk.injEq] at h
      obtain ⟨-, hs⟩ := h
      subst hs
      rw [hb]
      congr 1
      ring

/-- Claim C5, witness for the amended theorem: the transfer of 300 from user
1 to user 2 on the seeded state keeps user 1's balance equal to its old
balance plus the change of its log sum. -/
theorem transfer_kic_preserves_balance_minus_logSum_witness :
    transfer_kic 1 2 300 "x" seededState = some (true, seededAfter) ∧
    lookupBalance seededState.users 1 = some 1500 ∧
    lookupBalance seededAfter.users 1
      = some (1500 + (logSum seededAfter.log 1 - logSum seededState.log 1)) :=
  ⟨rfl, rfl,
    transfer_kic_preserves_balance_minus_logSum 1 2 1 300 1500 "x" seededState
      true seededAfter rfl rfl⟩

/-- Claim C6, counterexample: transferring 300 from account 1 to the
nonexistent account 99 debits account 1 and credits no row, so the sum of
all balances drops from 1500 to 1200 — a sequence of transfers alone does
not conserve the total. -/
theorem transfer_kic_destroys_total :
    totalBalance exState = 1500 ∧
    (transfer_kic 1 99 300 "x" exState).map (fun r => totalBalance r.2)
      = some 1200 ∧
    (1200 : Int) ≠ 1500 := by
  refine ⟨by decide, by decide, by decide⟩

/-- Claim C6, amended: the sum of all balances is conserved by any sequence
of `transfer_kic` calls in which every named receiver exists; without that
restriction the claim fails, because a transfer to a nonexistent account id
destroys the transferred amount. -/
theorem runTransfers_conserves_total (reqs : List TransferReq) :
    ∀ s s' : LedgerState, (s.users.map Prod.fst).Nodup →
      (∀ r ∈ reqs, r.toId ∈ s.users.map Prod.fst) →
      runTransfers reqs s = some s' →
      totalBalance s' = totalBalance s := by
  induction reqs with
  | nil =>
    intro s s' _ _ h
    simp only [runTransfers, Option.some.injEq] at h
    rw [h]
  | cons r rest ih =>
    intro s s' hnd hex h
    rcases htr : transfer_kic r.fromId r.toId r.amount r.descr s with _ | ⟨ok, s1⟩
    · unfold runTransfers at h
      rw [htr] at h
      cases h
    · unfold runTransfers at h
      rw [htr] at h
      have hkeys := transfer_kic_keys r.fromId r.toId r.amount r.descr s ok s1 htr
      have hstep := transfer_kic_total_of_receiver_mem r.fromId r.toId r.amount
        r.descr s ok s1 hnd (hex r (List.mem_cons_self r rest)) htr
      have hrest := ih s1 s' (by rw [hkeys]; exact hnd)
        (fun q hq => by rw [hkeys]; exact hex q (List.mem_cons_of_mem _ hq)) h
      rw [hrest, hstep]

/-- Claim C6, witness for the amended theorem: two transfers between the two
existing accounts of `exState` leave the total at 1500. -/
theorem runTransfers_conserves_total_witness :
    (exState.users.map Prod.fst).Nodup ∧
    runTransfers reqsEx exState = some exAfterTwo ∧
    totalBalance exAfterTwo = totalBalance exState :=
  ⟨by decide, by decide,
    runTransfers_conserves_total reqsEx exState exAfterTwo (by decide)
      (by decide) (by decide)⟩

/-- Claim C7, counterexample: `transfer_kic 1 2 (-300)` passes the balance
check (1000 ≥ -300) and "credits" -300 to account 2, driving its balance
from 0 down to -300: a transfer call can push a balance below zero. -/
theorem transfer_kic_overdraft :
    (transfer_kic 1 2 (-300) "x" exState2).map (fun r => lookupBalance r.2.users 2)
      = some (some (-300)) ∧
    ¬ (0 : Int) ≤ -300 := by
  refine ⟨by decide, by decide⟩

/-- Claim C7, amended: balances stay non-negative only for calls with a
non-negative amount: if every balance is ≥ 0 and the requested amount is
≥ 0, then every balance is still ≥ 0 after the call; a negative amount can
drive the receiver's balance below zero (see the counterexample). -/
theorem transfer_kic_no_overdraft_of_nonneg (f t : Nat) (a : Int) (d : String)
    (s : LedgerState) (ok : Bool) (s' : LedgerState)
    (hnd : (s.users.map Prod.fst).Nodup) (ha : 0 ≤ a)
    (h0 : allNonneg s.users)
    (h : transfer_kic f t a d s = some (ok, s')) :
    allNonneg s'.users := by
  rcases hf : lookupBalance s.users f with _ | bf
  · unfold transfer_kic at h
    rw [hf] at h
    cases h
  · by_cases hge : bf ≥ a
    · rw [transfer_kic_eq_of_ge f t a bf d s hf hge] at h
      simp only [Option.some.injEq, Prod.mk.injEq] at h
      obtain ⟨-, hs⟩ := h
      subst hs
      intro q hq
      obtain ⟨p1, hp1, hq1⟩ := mem_updateBalance _ t a q hq
      obtain ⟨p0, hp0, hp1e⟩ := mem_updateBalance _ f (-a) p1 hp1
      have h0p0 : 0 ≤ p0.2 := h0 p0 hp0
      rw [hq1, hp1e]
      by_cases hf0 : p0.1 = f
      · have hval : p0.2 = bf := lookup_unique s.users f bf hnd hf p0 hp0 hf0
        rw [if_pos hf0]
        show (0 : Int) ≤ (if p0.1 = t then (p0.1, p0.2 + -a + a) else (p0.1, p0.2 + -a)).2
        by_cases ht0 : p0.1 = t
        · rw [if_pos ht0]
          show (0 : Int) ≤ p0.2 + -a + a
          linarith
        · rw [if_neg ht0]
          show (0 : Int) ≤ p0.2 + -a
          linarith
      · rw [if_neg hf0]
        by_cases ht0 : p0.1 = t
        · rw [if_pos ht0]
          show (0 : Int) ≤ p0.2 + a
          linarith
        · rw [if_neg ht0]
          exact h0p0
    · rw [transfer_kic_eq_of_lt f t a bf d s hf (not_le.mp hge)] at h
      simp only [Option.some.injEq, Prod.mk.injEq] at h
      obtain ⟨-, hs⟩ := h
      subst hs
      exact h0

/-- Claim C7, witness for the amended theorem: the non-negative transfer of
300 from account 1 to account 2 keeps all balances of `exState`
non-negative. -/
theorem transfer_kic_no_overdraft_of_nonneg_witness :
    (exState.users.map Prod.fst).Nodup ∧ (0 : Int) ≤ 300 ∧
    allNonneg exState.users ∧
    transfer_kic 1 2 300 "x" exState = some (true, exAfter300) ∧
    allNonneg exAfter300.users :=
  ⟨by decide, by decide, by unfold allNonneg; decide, by decide,
    transfer_kic_no_overdraft_of_nonneg 1 2 300 "x" exState true exAfter300
      (by decide) (by decide) (by unfold allNonneg; decide) (by decide)⟩

/-- Claim C8, counterexample: looking up the balance of the nonexistent
account 99 does not fail with NotFound — the code crashes with the
TypeError raised by subscripting the None that `fetchone()` returns, which
differs from the specified result. -/
theorem get_kic_balance_missing_crashes :
    get_kic_balance 99 exState = BalanceResult.err KicError.typeError ∧
    getBalance_spec 99 exState = BalanceResult.err KicError.notFound ∧
    BalanceResult.err KicError.typeError ≠ BalanceResult.err KicError.notFound := by
  refine ⟨rfl, rfl, by decide⟩

/-- Claim C8, amended: `get_kic_balance` returns the account's balance as an
integer when the account exists — agreeing there with the specified
`getBalance` — and when no account with that id exists it raises an uncaught
TypeError rather than failing with NotFound. -/
theorem get_kic_balance_cases (uid : Nat) (s : LedgerState) :
    (∀ b : Int, lookupBalance s.users uid = some b →
      get_kic_balance uid s = BalanceResult.ok b ∧
      get_kic_balance uid s = getBalance_spec uid s) ∧
    (lookupBalance s.users uid = none →
      get_kic_balance uid s = BalanceResult.err KicError.typeError ∧
      get_kic_balance uid s ≠ getBalance_spec uid s) := by
  constructor
  · intro b hb
    unfold get_kic_balance getBalance_spec
    rw [hb]
    exact ⟨rfl, rfl⟩
  · intro hn
    unfold get_kic_balance getBalance_spec
    rw [hn]
    exact ⟨rfl, by decide⟩

/-- Claim C8, witness: account 1 of `exState` resolves to its balance 1000,
and the missing account 99 ends in the TypeError crash, not NotFound. -/
theorem get_kic_balance_cases_witness :
    (get_kic_balance 1 exState = BalanceResult.ok 1000 ∧
     get_kic_balance 1 exState = getBalance_spec 1 exState) ∧
    (get_kic_balance 99 exState = BalanceResult.err KicError.typeError ∧
     get_kic_balance 99 exState ≠ getBalance_spec 99 exState) :=
  ⟨(get_kic_balance_cases 1 exState).1 1000 rfl,
   (get_kic_balance_cases 99 exState).2 rfl⟩

set_option maxRecDepth 100000 in
/-- Claim C9, counterexample: nothing in the code serializes the mutating
calls, so the lost-update interleaving is admitted.  Under the schedule in
which each of the 100 concurrent `transfer_kic 1 2 1 _` callers executes its
balance SELECT before any caller executes its write block, every caller
reads 50, every one of the 100 calls succeeds, and account 1 ends at -50 —
not 50 successes, and the balance goes negative. -/
theorem concurrent_transfers_lost_update :
    countOutcome (runSchedule 1 2 1 "t" raceSchedule raceInit) true = 100 ∧
    lookupBalance (runSchedule 1 2 1 "t" raceSchedule raceInit).st.users 1
      = some (-50) ∧
    ¬ (100 = 50) ∧ ¬ ((0 : Int) ≤ -50) := by
  refine ⟨by decide, by decide, by decide, by decide⟩

set_option maxRecDepth 100000 in
/-- Claim C9, amended: `transfer_kic` performs no serialization, so the
lost-update race is possible (see the counterexample); the claimed outcome
holds only when the 100 calls execute serially — each caller completing its
read and its write before the next starts — in which case exactly 50
succeed, 50 fail, and account 1 ends at exactly 0. -/
theorem serialized_transfers_exact_split :
    countOutcome (runSchedule 1 2 1 "t" seqSchedule raceInit) true = 50 ∧
    countOutcome (runSchedule 1 2 1 "t" seqSchedule raceInit) false = 50 ∧
    lookupBalance (runSchedule 1 2 1 "t" seqSchedule raceInit).st.users 1
      = some 0 := by
  refine ⟨by decide, by decide, by decide⟩

/-- Claim C10: when the sender exists with balance ≥ amount but no account
has the receiver's id, `transfer_kic` still reports success: it returns
True; the users table becomes exactly the sender-debited one (the receiver
UPDATE matches no row); the sender's balance drops by the amount; the
receiver id still matches no account; a `received` log entry referencing
the nonexistent account is appended; and the sum of all balances decreases
by the amount. -/
theorem transfer_kic_missing_receiver (f t : Nat) (a b : Int) (d : String)
    (s : LedgerState)
    (hnd : (s.users.map Prod.fst).Nodup)
    (hb : lookupBalance s.users f = some b) (hge : b ≥ a)
    (ht : lookupBalance s.users t = none) :
    (transfer_kic f t a d s).map Prod.fst = some true ∧
    (transfer_kic f t a d s).map (fun r => r.2.users)
      = some (updateBalance s.users f (-a)) ∧
    (transfer_kic f t a d s).map (fun r => lookupBalance r.2.users f)
      = some (some (b - a)) ∧
    (transfer_kic f t a d s).map (fun r => lookupBalance r.2.users t)
      = some none ∧
    (transfer_kic f t a d s).map (fun r => r.2.log)
      = some (s.log ++
          [{ user_id := f, transaction_type := "sent", amount := -a,
             description := d, related_id := none },
           { user_id := t, transaction_type := "received", amount := a,
             description := d, related_id := none }]) ∧
    (transfer_kic f t a d s).map (fun r => totalBalance r.2)
      = some (totalBalance s - a) := by
  rw [transfer_kic_eq_of_ge f t a b d s hb hge]
  have hc0 : countId s.users t = 0 := countId_eq_zero_of_lookup_none s.users t ht
  have hid : updateBalance (updateBalance s.users f (-a)) t a
      = updateBalance s.users f (-a) := by
    apply updateBalance_of_countId_zero
    rw [countId_update]
    exact hc0
  have hne : f ≠ t := by
    intro hc
    rw [hc, ht] at hb
    cases hb
  refine ⟨rfl, congrArg some hid, ?_, ?_, rfl, ?_⟩
  · have h1 : lookupBalance (updateBalance (updateBalance s.users f (-a)) t a) f
        = some (b - a) := by
      rw [hid, lookupBalance_update_self, hb]
      simp only [Option.map_some']
      exact congrArg some (by ring)
    exact congrArg some h1
  · have h2 : lookupBalance (updateBalance (updateBalance s.users f (-a)) t a) t
        = none := by
      rw [hid, lookupBalance_update_other _ (Ne.symm hne), ht]
    exact congrArg some h2
  · have h1 : countId s.users f = 1 :=
      countId_eq_one_of_lookup_some s.users f b hnd hb
    have h3 : ((updateBalance (updateBalance s.users f (-a)) t a).map
        (fun p => p.2)).sum = (s.users.map (fun p => p.2)).sum - a := by
      rw [hid, sum_update, h1]
      ring
    exact congrArg some h3

/-- Claim C10, witness: transferring 300 from account 1 of `exState` to the
nonexistent account 99 returns True, leaves only the debit, logs a
`received` entry for the missing account, and shrinks the total by 300. -/
theorem transfer_kic_missing_receiver_witness :
    (exState.users.map Prod.fst).Nodup ∧
    lookupBalance exState.users 1 = some 1000 ∧ (1000 : Int) ≥ 300 ∧
    lookupBalance exState.users 99 = none ∧
    ((transfer_kic 1 99 300 "x" exState).map Prod.fst = some true ∧
     (transfer_kic 1 99 300 "x" exState).map (fun r => r.2.users)
       = some (updateBalance exState.users 1 (-300)) ∧
     (transfer_kic 1 99 300 "x" exState).map (fun r => lookupBalance r.2.users 1)
       = some (some (1000 - 300)) ∧
     (transfer_kic 1 99 300 "x" exState).map (fun r => lookupBalance r.2.users 99)
       = some none ∧
     (transfer_kic 1 99 300 "x" exState).map (fun r => r.2.log)
       = some (exState.log ++
           [{ user_id := 1, transaction_type := "sent", amount := -300,
              description := "x", related_id := none },
            { user_id := 99, transaction_type := "received", amount := 300,
              description := "x", related_id := none }]) ∧
     (transfer_kic 1 99 300 "x" exState).map (fun r => totalBalance r.2)
       = some (totalBalance exState - 300)) :=
  ⟨by decide, rfl, by decide, rfl,
    transfer_kic_missing_receiver 1 99 300 1000 "x" exState (by decide) rfl
      (by decide) rfl⟩

end KIC
